import Mathlib

/-!
Verification of the A/B-test analysis pipeline in `ab_script.py`.

The script is a linear pipeline: load a CSV, clean it (drop mismatched
group/page rows, then drop duplicated user ids keeping the first
occurrence), split into treatment/control cohorts, and run a pooled
two-proportion z-test.  We embed each stage as a Lean function over an
explicit list-of-records data model and prove the spec's claims about it.
-/

namespace ABTest

/-- One row of the dataset: `user_id`, `group`, `landing_page`, `converted`,
as in the CSV read by the script (`converted` is the 0/1 column). -/
structure Record where
  user_id : String
  group : String
  landing_page : String
  converted : Nat
deriving DecidableEq

/-- Worker for `drop_duplicated_userid`: keep a row iff its `user_id` has not
been seen in an earlier row.  This is the keep-first semantics of
`DataFrame.drop_duplicates(subset="user_id")` (pandas default `keep="first"`)
used at `ab_script.py:19`. -/
def dedupAux (seen : List String) : List Record → List Record
  | [] => []
  | r :: rs =>
    if seen.contains r.user_id then dedupAux seen rs
    else r :: dedupAux (r.user_id :: seen) rs

/-- `drop_duplicated_userid` (`ab_script.py:5-20`):
`raw_data.drop_duplicates(subset="user_id")`, keeping the first occurrence
of each `user_id` in input order. -/
def drop_duplicated_userid (raw_data : List Record) : List Record :=
  dedupAux [] raw_data

/-- The row predicate of `drop_mismatched_data` (`ab_script.py:37-40`):
`(group == "treatment" and landing_page == "old_page") or
 (group == "control" and landing_page == "new_page")`. -/
def coherent (r : Record) : Bool :=
  (r.group == "treatment" && r.landing_page == "old_page") ||
  (r.group == "control" && r.landing_page == "new_page")

/-- `drop_mismatched_data` (`ab_script.py:23-41`): boolean-mask selection of
the rows satisfying `coherent`. -/
def drop_mismatched_data (raw_data : List Record) : List Record :=
  raw_data.filter coherent

/-- `drop_incoherent_data` (`ab_script.py:44-50`): the composed Cleaner,
mismatch filter first, then duplicate-user filter. -/
def drop_incoherent_data (raw_data : List Record) : List Record :=
  drop_duplicated_userid (drop_mismatched_data raw_data)

/-- `split_data` (`ab_script.py:53-69`): `data.query("group == 'treatment'")`
and `data.query("group == 'control'")`. -/
def split_data (data : List Record) : List Record × List Record :=
  (data.filter (fun r => r.group == "treatment"),
   data.filter (fun r => r.group == "control"))

/-! ### Loader

`ab_script.py:124` is a bare `pd.read_csv("ab_data.csv")`.  We model the
pandas reader on an abstract source: `none` stands for a missing/unreadable
file (pandas raises `FileNotFoundError`), an empty line list for an empty
file (`EmptyDataError`), and otherwise the first line is the header and a
row with more comma-separated fields than the header is a parse failure
(`ParserError`).  Nothing in the script validates the column names. -/

/-- The error cases `pd.read_csv` can raise for the call at
`ab_script.py:124`. -/
inductive LoadError where
  | fileNotFound
  | emptyData
  | parserError
deriving DecidableEq

/-- Split a line at commas into fields (the CSV tokenizer, no quoting in the
modelled data). -/
def splitFields : List Char → List (List Char)
  | [] => [[]]
  | c :: cs =>
    match splitFields cs with
    | [] => [[]]
    | f :: fs => if c = ',' then [] :: f :: fs else (c :: f) :: fs

/-- Split a CSV line into its comma-separated fields. -/
def splitComma (s : String) : List String :=
  (splitFields s.data).map (fun cs => String.mk cs)

/-- The in-memory table returned by the Loader: column names and rows of
field strings (the `pd.DataFrame` of the script, before typing). -/
structure Frame where
  columns : List String
  rows : List (List String)
deriving DecidableEq

/-- Model of `pd.read_csv` as invoked at `ab_script.py:124`: fails on a
missing, empty, or ragged source, and otherwise returns the parsed frame
with whatever columns the source has — the script performs no column-set
validation. -/
def read_csv (source : Option (List String)) : Except LoadError Frame :=
  match source with
  | none => .error .fileNotFound
  | some [] => .error .emptyData
  | some (header :: rows) =>
    let cols := splitComma header
    let parsed := rows.map splitComma
    if parsed.all (fun r => r.length ≤ cols.length) then .ok ⟨cols, parsed⟩
    else .error .parserError

/-! ### Basic lemmas about the duplicate-user filter -/

theorem dedupAux_sublist (seen : List String) (l : List Record) :
    (dedupAux seen l).Sublist l := by
  induction l generalizing seen with
  | nil => simp [dedupAux]
  | cons r rs ih =>
    simp only [dedupAux]
    split
    · exact (ih seen).trans (List.sublist_cons_self r rs)
    · exact (ih (r.user_id :: seen)).cons₂ r

theorem mem_dedupAux_not_seen (seen : List String) (l : List Record) :
    ∀ s ∈ dedupAux seen l, seen.contains s.user_id = false := by
  induction l generalizing seen with
  | nil => simp [dedupAux]
  | cons r rs ih =>
    intro s hs
    by_cases hr : seen.contains r.user_id
    · rw [dedupAux, if_pos hr] at hs
      exact ih seen s hs
    · rw [dedupAux, if_neg hr] at hs
      rw [List.mem_cons] at hs
      rcases hs with hs | hs
      · subst hs
        simpa using hr
      · have h := ih (r.user_id :: seen) s hs
        simp only [List.contains_cons, Bool.or_eq_false_iff] at h
        exact h.2

theorem dedupAux_pairwise (seen : List String) (l : List Record) :
    (dedupAux seen l).Pairwise (fun a b => a.user_id ≠ b.user_id) := by
  induction l generalizing seen with
  | nil => simp [dedupAux]
  | cons r rs ih =>
    simp only [dedupAux]
    split
    · exact ih seen
    · refine List.Pairwise.cons ?_ (ih (r.user_id :: seen))
      intro s hs
      have h := mem_dedupAux_not_seen (r.user_id :: seen) rs s hs
      simp only [List.contains_cons, Bool.or_eq_false_iff, beq_eq_false_iff_ne] at h
      exact fun he => h.1 (he ▸ rfl)

theorem dedupAux_eq_self (seen : List String) (l : List Record)
    (h1 : l.Pairwise (fun a b => a.user_id ≠ b.user_id))
    (h2 : ∀ s ∈ l, seen.contains s.user_id = false) :
    dedupAux seen l = l := by
  induction l generalizing seen with
  | nil => simp [dedupAux]
  | cons r rs ih =>
    have hr : seen.contains r.user_id = false := h2 r (by simp)
    simp only [dedupAux, hr, Bool.false_eq_true, if_false]
    congr 1
    refine ih (r.user_id :: seen) h1.of_cons ?_
    intro s hs
    have hne : r.user_id ≠ s.user_id := List.rel_of_pairwise_cons h1 hs
    simp only [List.contains_cons, Bool.or_eq_false_iff, beq_eq_false_iff_ne]
    exact ⟨fun he => hne he.symm, h2 s (by simp [hs])⟩

theorem dedupAux_filter_uid (u : String) (l : List Record) (seen : List String) :
    (dedupAux seen l).filter (fun r => r.user_id == u) =
      if seen.contains u then [] else (l.filter (fun r => r.user_id == u)).take 1 := by
  induction l generalizing seen with
  | nil => by_cases hu : seen.contains u <;> simp [dedupAux, hu]
  | cons r rs ih =>
    by_cases hr : seen.contains r.user_id
    · rw [dedupAux, if_pos hr, ih seen]
      by_cases hu : seen.contains u
      · rw [if_pos hu, if_pos hu]
      · have hne : (r.user_id == u) = false := by
          rw [beq_eq_false_iff_ne]
          intro he
          exact hu (he ▸ hr)
        rw [if_neg hu, if_neg hu, List.filter_cons, hne]
        simp
    · rw [dedupAux, if_neg hr, List.filter_cons]
      by_cases hru : r.user_id = u
      · subst hru
        have hcontains : (r.user_id :: seen).contains r.user_id = true := by simp
        rw [if_neg hr]
        simp only [beq_self_eq_true, if_true]
        rw [ih (r.user_id :: seen), if_pos hcontains, List.filter_cons]
        simp
      · have hne : (r.user_id == u) = false := beq_eq_false_iff_ne.mpr hru
        rw [hne]
        simp only [Bool.false_eq_true, if_false]
        rw [ih (r.user_id :: seen)]
        have hc : (r.user_id :: seen).contains u = seen.contains u := by
          have : (u == r.user_id) = false :=
            beq_eq_false_iff_ne.mpr (fun h => hru h.symm)
          rw [List.contains_cons, this, Bool.false_or]
        rw [hc]
        by_cases hu : seen.contains u
        · rw [if_pos hu, if_pos hu]
        · rw [if_neg hu, if_neg hu, List.filter_cons, hne]
          simp

theorem filter_dedupAux (p : Record → Bool) (l : List Record) :
    ∀ seenL seenR : List String,
      (∀ u, seenR.contains u = true → seenL.contains u = true) →
      (∀ u, seenL.contains u = true → seenR.contains u = false →
        ∀ s ∈ l, s.user_id = u → p s = false) →
      (∀ a ∈ l, ∀ b ∈ l, a.user_id = b.user_id → p a = p b) →
      (dedupAux seenL l).filter p = dedupAux seenR (l.filter p) := by
  induction l with
  | nil => intro seenL seenR _ _ _; simp [dedupAux]
  | cons r rs ih =>
    intro seenL seenR hsub hbad hcons
    have hconsrs : ∀ a ∈ rs, ∀ b ∈ rs, a.user_id = b.user_id → p a = p b :=
      fun a ha b hb => hcons a (List.mem_cons_of_mem r ha) b (List.mem_cons_of_mem r hb)
    have hbadrs : ∀ u, seenL.contains u = true → seenR.contains u = false →
        ∀ s ∈ rs, s.user_id = u → p s = false :=
      fun u h1 h2 s hs => hbad u h1 h2 s (List.mem_cons_of_mem r hs)
    by_cases hrL : seenL.contains r.user_id
    · rw [dedupAux, if_pos hrL]
      by_cases hrR : seenR.contains r.user_id = true
      · rw [List.filter_cons]
        by_cases hpr : p r = true
        · rw [if_pos hpr, dedupAux, if_pos hrR]
          exact ih seenL seenR hsub hbadrs hconsrs
        · rw [if_neg hpr]
          exact ih seenL seenR hsub hbadrs hconsrs
      · have hpr : p r = false := by
          refine hbad r.user_id hrL ?_ r (List.mem_cons_self r rs) rfl
          simpa using hrR
        rw [List.filter_cons, if_neg (by rw [hpr]; exact Bool.false_ne_true)]
        exact ih seenL seenR hsub hbadrs hconsrs
    · have hrR : ¬seenR.contains r.user_id = true := fun h => hrL (hsub _ h)
      rw [dedupAux, if_neg hrL]
      by_cases hpr : p r = true
      · rw [List.filter_cons, if_pos hpr, List.filter_cons, if_pos hpr,
          dedupAux, if_neg hrR]
        congr 1
        refine ih (r.user_id :: seenL) (r.user_id :: seenR) ?_ ?_ hconsrs
        · intro u hu
          simp only [List.contains_cons, Bool.or_eq_true] at hu ⊢
          exact hu.imp id (hsub u)
        · intro u h1 h2 s hs hsu
          simp only [List.contains_cons, Bool.or_eq_true] at h1
          simp only [List.contains_cons, Bool.or_eq_false_iff] at h2
          rcases h1 with h1 | h1
          · exact absurd h1 (by simp [h2.1])
          · exact hbad u h1 h2.2 s (List.mem_cons_of_mem r hs) hsu
      · rw [List.filter_cons, if_neg hpr, List.filter_cons, if_neg hpr]
        refine ih (r.user_id :: seenL) seenR ?_ ?_ hconsrs
        · intro u hu
          simp only [List.contains_cons, Bool.or_eq_true]
          exact Or.inr (hsub u hu)
        · intro u h1 h2 s hs hsu
          simp only [Bool.not_eq_true] at hpr
          simp only [List.contains_cons, Bool.or_eq_true] at h1
          rcases h1 with h1 | h1
          · have huid : u = r.user_id := beq_iff_eq.mp h1
            have hps : p s = p r :=
              hcons s (List.mem_cons_of_mem r hs) r (List.mem_cons_self r rs)
                (by rw [hsu, huid])
            rw [hps, hpr]
          · exact hbad u h1 h2 s (List.mem_cons_of_mem r hs) hsu

/-! ### Statistics engine

The numeric pipeline (`compute_conversion_rate`, `compute_z_statistic`,
and the `p_value` of the `__main__` block) works on Python floats; we embed
it over `ℝ`.  Divisions that Python can actually reach with a zero
denominator are modelled as `Except` errors carrying the interpreter's
message (`ZeroDivisionError`), exactly where the script would raise. -/

/-- A raised Python `ZeroDivisionError` with its message. -/
inductive PyError where
  | zeroDivisionError (msg : String)
deriving DecidableEq

noncomputable section

/-- Density of the standard normal distribution (the density behind
`scipy.stats.norm.cdf`). -/
def stdNormalPDF (t : ℝ) : ℝ :=
  Real.exp (-(1 / 2) * t ^ 2) / Real.sqrt (2 * Real.pi)

/-- `stats.norm.cdf`: the cumulative distribution function of the standard
normal distribution. -/
def stdNormalCDF (x : ℝ) : ℝ := ∫ t in Set.Iic x, stdNormalPDF t

/-- `stats.norm.ppf(0.975)` (`ab_script.py:118`): the 97.5% quantile of the
standard normal distribution.  No claim constrains its value, so it is kept
as the abstract quantile. -/
def zCriticalScore : ℝ := sInf {x : ℝ | (0.975 : ℝ) ≤ stdNormalCDF x}

/-- The value `data[data.converted == 1].shape[0] / data.shape[0]` computed
by `compute_conversion_rate` (`ab_script.py:87`) on a non-empty cohort. -/
def conversion_rate (data : List Record) : ℝ :=
  ((data.filter (fun r => r.converted == 1)).length : ℝ) / (data.length : ℝ)

/-- `compute_conversion_rate` (`ab_script.py:72-87`).  When the cohort is
empty the Python integer division `... / data.shape[0]` raises
`ZeroDivisionError("division by zero")`; it never returns NaN. -/
def compute_conversion_rate (data : List Record) : Except PyError ℝ :=
  if data.length = 0 then .error (.zeroDivisionError "division by zero")
  else .ok (conversion_rate data)

/-- The pooled standard error `pool_stdev` of `compute_z_statistic`
(`ab_script.py:113-114`), as a function of the two cohorts. -/
def pool_stdev (treatment control : List Record) : ℝ :=
  let n_treatment : ℝ := treatment.length
  let n_control : ℝ := control.length
  let p := (n_treatment * conversion_rate treatment +
    n_control * conversion_rate control) / (n_treatment + n_control)
  Real.sqrt (p * (1 - p) * (1 / n_treatment + 1 / n_control))

/-- `compute_z_statistic` (`ab_script.py:90-120`), returning the pair
`(observed_z_score, critical_z_score)`.  The conversion rates are computed
first (lines 108-109), so an empty cohort raises there; once both rates
exist the cohorts are non-empty, and the only remaining division with a
possibly-zero denominator is `diff_rate / pool_stdev` (line 117), a float
division which raises `ZeroDivisionError("float division by zero")` when
the pooled standard error is zero. -/
def compute_z_statistic (treatment control : List Record) :
    Except PyError (ℝ × ℝ) :=
  match compute_conversion_rate treatment, compute_conversion_rate control with
  | .error e, _ => .error e
  | .ok _, .error e => .error e
  | .ok treatment_rate, .ok control_rate =>
    let n_treatment : ℝ := treatment.length
    let n_control : ℝ := control.length
    let diff_rate := treatment_rate - control_rate
    let p := (n_treatment * treatment_rate + n_control * control_rate) /
      (n_treatment + n_control)
    let pool_stdev := Real.sqrt (p * (1 - p) * (1 / n_treatment + 1 / n_control))
    if pool_stdev = 0 then .error (.zeroDivisionError "float division by zero")
    else .ok (diff_rate / pool_stdev, zCriticalScore)

/-- The reported p-value (`ab_script.py:129`):
`2 * (1 - stats.norm.cdf(observed_z_score))`.  The code applies the CDF to
the signed z-score. -/
def reported_p_value (treatment control : List Record) : Except PyError ℝ :=
  (compute_z_statistic treatment control).map (fun zs => 2 * (1 - stdNormalCDF zs.1))

/-- The p-value as the specification words it:
`2 * (1 - standard_normal_cdf(|z_observed|))`, the CDF applied to the
absolute value of the observed z-score.  Stated from the spec's words, for
comparison with `reported_p_value`. -/
def spec_p_value (treatment control : List Record) : Except PyError ℝ :=
  (compute_z_statistic treatment control).map (fun zs => 2 * (1 - stdNormalCDF |zs.1|))

end

/-! ### Analytic facts about the standard normal CDF -/

theorem stdNormalPDF_pos (t : ℝ) : 0 < stdNormalPDF t := by
  have h2π : 0 < Real.sqrt (2 * Real.pi) := Real.sqrt_pos.mpr (by positivity)
  exact div_pos (Real.exp_pos _) h2π

theorem integrable_stdNormalPDF : MeasureTheory.Integrable stdNormalPDF := by
  have h := integrable_exp_neg_mul_sq (by norm_num : (0 : ℝ) < 1 / 2)
  exact h.div_const _

theorem stdNormalCDF_lt_of_lt {a b : ℝ} (hab : a < b) :
    stdNormalCDF a < stdNormalCDF b := by
  have hInt := integrable_stdNormalPDF
  have hsub : stdNormalCDF b - stdNormalCDF a = ∫ x in a..b, stdNormalPDF x :=
    intervalIntegral.integral_Iic_sub_Iic hInt.integrableOn hInt.integrableOn
  have hpos : 0 < ∫ x in a..b, stdNormalPDF x :=
    intervalIntegral.intervalIntegral_pos_of_pos hInt.intervalIntegrable
      stdNormalPDF_pos hab
  linarith

/-! ### Helper equations for evaluating the z-statistic -/

theorem compute_conversion_rate_ok {d : List Record} {r : ℝ}
    (h : compute_conversion_rate d = .ok r) : r = conversion_rate d := by
  by_cases hd : d.length = 0
  · rw [compute_conversion_rate, if_pos hd] at h
    cases h
  · rw [compute_conversion_rate, if_neg hd] at h
    exact (Except.ok.injEq _ _ ▸ h).symm

theorem compute_z_statistic_eq {t c : List Record} {rt rc : ℝ}
    (ht : compute_conversion_rate t = .ok rt)
    (hc : compute_conversion_rate c = .ok rc) :
    compute_z_statistic t c =
      if pool_stdev t c = 0 then .error (.zeroDivisionError "float division by zero")
      else .ok ((rt - rc) / pool_stdev t c, zCriticalScore) := by
  have hrt := compute_conversion_rate_ok ht
  have hrc := compute_conversion_rate_ok hc
  subst hrt hrc
  simp only [compute_z_statistic, ht, hc, pool_stdev]

/-! ### Concrete cohorts used in witnesses and counterexamples -/

/-- A one-record treatment cohort with no conversion. -/
def tEx : List Record := [⟨"t1", "treatment", "old_page", 0⟩]

/-- A one-record control cohort with a conversion. -/
def cEx : List Record := [⟨"c1", "control", "new_page", 1⟩]

/-- A two-record treatment cohort converting at rate 1/2. -/
def tEx2 : List Record :=
  [⟨"t1", "treatment", "old_page", 1⟩, ⟨"t2", "treatment", "old_page", 0⟩]

/-- A two-record control cohort converting at rate 1/2. -/
def cEx2 : List Record :=
  [⟨"c1", "control", "new_page", 1⟩, ⟨"c2", "control", "new_page", 0⟩]

/-- A one-record control cohort with no conversion (pooled rate 0 against
`tEx`, hence zero pooled standard error). -/
def cExZero : List Record := [⟨"c1", "control", "new_page", 0⟩]

theorem conv_tEx : compute_conversion_rate tEx = .ok 0 := by
  simp [compute_conversion_rate, conversion_rate, tEx]

theorem conv_cEx : compute_conversion_rate cEx = .ok 1 := by
  simp [compute_conversion_rate, conversion_rate, cEx]

theorem conv_tEx2 : compute_conversion_rate tEx2 = .ok (1 / 2) := by
  simp [compute_conversion_rate, conversion_rate, tEx2]

theorem conv_cEx2 : compute_conversion_rate cEx2 = .ok (1 / 2) := by
  simp [compute_conversion_rate, conversion_rate, cEx2]

theorem conv_cExZero : compute_conversion_rate cExZero = .ok 0 := by
  simp [compute_conversion_rate, conversion_rate, cExZero]

theorem conv_rate_tEx : conversion_rate tEx = 0 := by simp [conversion_rate, tEx]

theorem conv_rate_cEx : conversion_rate cEx = 1 := by simp [conversion_rate, cEx]

theorem len_tEx : ((tEx.length : ℕ) : ℝ) = 1 := by simp [tEx]

theorem len_cEx : ((cEx.length : ℕ) : ℝ) = 1 := by simp [cEx]

theorem pool_tEx_cEx : pool_stdev tEx cEx = (Real.sqrt 2)⁻¹ := by
  dsimp only [pool_stdev]
  rw [conv_rate_tEx, conv_rate_cEx, len_tEx, len_cEx]
  rw [show ((1 : ℝ) * 0 + 1 * 1) / (1 + 1) * (1 - (1 * 0 + 1 * 1) / (1 + 1)) *
    (1 / 1 + 1 / 1) = 2⁻¹ by norm_num]
  exact Real.sqrt_inv 2

theorem pool_cEx_tEx : pool_stdev cEx tEx = (Real.sqrt 2)⁻¹ := by
  dsimp only [pool_stdev]
  rw [conv_rate_tEx, conv_rate_cEx, len_tEx, len_cEx]
  rw [show ((1 : ℝ) * 1 + 1 * 0) / (1 + 1) * (1 - (1 * 1 + 1 * 0) / (1 + 1)) *
    (1 / 1 + 1 / 1) = 2⁻¹ by norm_num]
  exact Real.sqrt_inv 2

theorem pool_tEx2_cEx2 : pool_stdev tEx2 cEx2 = 1 / 2 := by
  have h0 : conversion_rate tEx2 = 1 / 2 := by simp [conversion_rate, tEx2]
  have h1 : conversion_rate cEx2 = 1 / 2 := by simp [conversion_rate, cEx2]
  have hlt : ((tEx2.length : ℕ) : ℝ) = 2 := by simp [tEx2]
  have hlc : ((cEx2.length : ℕ) : ℝ) = 2 := by simp [cEx2]
  dsimp only [pool_stdev]
  rw [h0, h1, hlt, hlc]
  rw [show ((2 : ℝ) * (1 / 2) + 2 * (1 / 2)) / (2 + 2) *
    (1 - (2 * (1 / 2) + 2 * (1 / 2)) / (2 + 2)) * (1 / 2 + 1 / 2) =
      (2⁻¹) ^ 2 by norm_num]
  rw [Real.sqrt_sq (by norm_num : (0 : ℝ) ≤ 2⁻¹)]
  norm_num

theorem pool_tEx_cExZero : pool_stdev tEx cExZero = 0 := by
  have h1 : conversion_rate cExZero = 0 := by simp [conversion_rate, cExZero]
  have hlc : ((cExZero.length : ℕ) : ℝ) = 1 := by simp [cExZero]
  dsimp only [pool_stdev]
  rw [conv_rate_tEx, h1, len_tEx, hlc]
  rw [show ((1 : ℝ) * 0 + 1 * 0) / (1 + 1) * (1 - (1 * 0 + 1 * 0) / (1 + 1)) *
    (1 / 1 + 1 / 1) = 0 by norm_num]
  exact Real.sqrt_zero

theorem sqrt_two_inv_ne_zero : (Real.sqrt 2)⁻¹ ≠ 0 :=
  inv_ne_zero (ne_of_gt (Real.sqrt_pos.mpr (by norm_num)))

theorem zstat_tEx_cEx :
    compute_z_statistic tEx cEx = .ok (-Real.sqrt 2, zCriticalScore) := by
  rw [compute_z_statistic_eq conv_tEx conv_cEx, pool_tEx_cEx,
    if_neg sqrt_two_inv_ne_zero]
  congr 1
  rw [div_eq_mul_inv, inv_inv]
  ring_nf

theorem zstat_cEx_tEx :
    compute_z_statistic cEx tEx = .ok (Real.sqrt 2, zCriticalScore) := by
  rw [compute_z_statistic_eq conv_cEx conv_tEx, pool_cEx_tEx,
    if_neg sqrt_two_inv_ne_zero]
  congr 1
  rw [div_eq_mul_inv, inv_inv]
  ring_nf

theorem zstat_tEx2_cEx2 :
    compute_z_statistic tEx2 cEx2 = .ok (0, zCriticalScore) := by
  rw [compute_z_statistic_eq conv_tEx2 conv_cEx2, pool_tEx2_cEx2,
    if_neg (by norm_num : (1 : ℝ) / 2 ≠ 0)]
  norm_num

/-! ### Splitter lemmas -/

theorem split_length (d : List Record)
    (h : ∀ r ∈ d, r.group = "treatment" ∨ r.group = "control") :
    (d.filter (fun r => r.group == "treatment")).length +
      (d.filter (fun r => r.group == "control")).length = d.length := by
  induction d with
  | nil => rfl
  | cons r rs ih =>
    have hrs := ih (fun s hs => h s (List.mem_cons_of_mem r hs))
    rcases h r (List.mem_cons_self r rs) with hg | hg
    · have h1 : (r.group == "treatment") = true := beq_iff_eq.mpr hg
      have h2 : (r.group == "control") = false := by rw [hg]; decide
      simp only [List.filter_cons, h1, h2, if_true, Bool.false_eq_true, if_false,
        List.length_cons]
      omega
    · have h1 : (r.group == "treatment") = false := by rw [hg]; decide
      have h2 : (r.group == "control") = true := beq_iff_eq.mpr hg
      simp only [List.filter_cons, h1, h2, if_true, Bool.false_eq_true, if_false,
        List.length_cons]
      omega

/-! ### Claim theorems for the Cleaner and Splitter -/

/-- C5: for every input Dataset, every record in the Cleaner's output has a
group/landing_page pairing equal to (treatment, old_page) or
(control, new_page), and no two records of the output share a user_id. -/
theorem cleaner_invariants (d : List Record) :
    (∀ r ∈ drop_incoherent_data d,
        (r.group = "treatment" ∧ r.landing_page = "old_page") ∨
          (r.group = "control" ∧ r.landing_page = "new_page")) ∧
      (drop_incoherent_data d).Pairwise (fun a b => a.user_id ≠ b.user_id) := by
  constructor
  · intro r hr
    have hmem : r ∈ drop_mismatched_data d :=
      (dedupAux_sublist [] (drop_mismatched_data d)).subset hr
    have hco : coherent r = true := List.of_mem_filter hmem
    rw [coherent] at hco
    simp only [Bool.or_eq_true, Bool.and_eq_true, beq_iff_eq] at hco
    exact hco
  · exact dedupAux_pairwise [] (drop_mismatched_data d)

/-- C6: the Cleaner is idempotent — applying `drop_incoherent_data` to any
of its own outputs returns that output unchanged (its outputs are fixed
points). -/
theorem cleaner_idempotent (d : List Record) :
    drop_incoherent_data (drop_incoherent_data d) = drop_incoherent_data d := by
  have hco : ∀ r ∈ drop_incoherent_data d, coherent r = true := fun r hr =>
    List.of_mem_filter ((dedupAux_sublist [] (drop_mismatched_data d)).subset hr)
  have hfilter :
      drop_mismatched_data (drop_incoherent_data d) = drop_incoherent_data d :=
    List.filter_eq_self.mpr hco
  rw [drop_incoherent_data, hfilter, drop_duplicated_userid]
  exact dedupAux_eq_self [] _ (dedupAux_pairwise [] (drop_mismatched_data d))
    (by simp)

/-- C7: for every cleaned Dataset (each record's group is treatment or
control) the Splitter's two cohorts partition it: the cohort sizes sum to
the Dataset size and every record lies in exactly one cohort. -/
theorem split_partition (d : List Record)
    (h : ∀ r ∈ d, r.group = "treatment" ∨ r.group = "control") :
    (split_data d).1.length + (split_data d).2.length = d.length ∧
      ∀ r ∈ d, (r ∈ (split_data d).1 ∧ r ∉ (split_data d).2) ∨
        (r ∈ (split_data d).2 ∧ r ∉ (split_data d).1) := by
  constructor
  · exact split_length d h
  · intro r hr
    rcases h r hr with hg | hg
    · left
      constructor
      · exact List.mem_filter.mpr ⟨hr, beq_iff_eq.mpr hg⟩
      · intro hmem
        have hc := (List.mem_filter.mp hmem).2
        rw [hg] at hc
        cases hc
    · right
      constructor
      · exact List.mem_filter.mpr ⟨hr, beq_iff_eq.mpr hg⟩
      · intro hmem
        have hc := (List.mem_filter.mp hmem).2
        rw [hg] at hc
        cases hc

/-- A two-record cleaned dataset, one record per group, used to witness the
Splitter partition property. -/
def cleanedEx : List Record :=
  [⟨"t1", "treatment", "old_page", 1⟩, ⟨"c1", "control", "new_page", 0⟩]

/-- Witness for C7 at the concrete cleaned dataset `cleanedEx`. -/
theorem split_partition_witness :
    (∀ r ∈ cleanedEx, r.group = "treatment" ∨ r.group = "control") ∧
      ((split_data cleanedEx).1.length + (split_data cleanedEx).2.length =
          cleanedEx.length ∧
        ∀ r ∈ cleanedEx, (r ∈ (split_data cleanedEx).1 ∧ r ∉ (split_data cleanedEx).2) ∨
          (r ∈ (split_data cleanedEx).2 ∧ r ∉ (split_data cleanedEx).1)) :=
  ⟨by decide, split_partition cleanedEx (by decide)⟩

/-- C8: for every Dataset and every user_id occurring in more than one
record, the duplicate-user filter retains exactly the first record with
that user_id (in input order) and drops all later ones: the filtered view
of the output at that user_id is the one-element prefix of the filtered
view of the input. -/
theorem dedup_keeps_first (l : List Record) (u : String)
    (h : 1 < (l.filter (fun r => r.user_id == u)).length) :
    (drop_duplicated_userid l).filter (fun r => r.user_id == u) =
      (l.filter (fun r => r.user_id == u)).take 1 := by
  rw [drop_duplicated_userid, dedupAux_filter_uid]
  rw [if_neg (by simp)]

/-- A dataset with two rows sharing user_id "u1" (the spec's duplicate
scenario). -/
def dupEx : List Record :=
  [⟨"u1", "treatment", "old_page", 0⟩, ⟨"u1", "control", "new_page", 1⟩]

/-- Witness for C8 at the concrete duplicate dataset `dupEx`. -/
theorem dedup_keeps_first_witness :
    1 < (dupEx.filter (fun r => r.user_id == "u1")).length ∧
      (drop_duplicated_userid dupEx).filter (fun r => r.user_id == "u1") =
        (dupEx.filter (fun r => r.user_id == "u1")).take 1 :=
  ⟨by decide, dedup_keeps_first dupEx "u1" (by decide)⟩

/-- C10: each cleaning filter and the composed Cleaner return an
order-preserving subsequence of their input (`List.Sublist`): every output
record is an input record, used at most once, in unchanged relative
order. -/
theorem cleaning_sublist (d : List Record) :
    (drop_duplicated_userid d).Sublist d ∧
      (drop_mismatched_data d).Sublist d ∧
      (drop_incoherent_data d).Sublist d :=
  ⟨dedupAux_sublist [] d, List.filter_sublist d,
    (dedupAux_sublist [] (drop_mismatched_data d)).trans (List.filter_sublist d)⟩

/-! ### C3: order of the two cleaning filters -/

/-- Two records sharing user_id "u1": the first mismatched
(treatment/new_page), the second coherent (treatment/old_page).  The two
cleaning orders disagree here. -/
def ordEx : List Record :=
  [⟨"u1", "treatment", "new_page", 0⟩, ⟨"u1", "treatment", "old_page", 0⟩]

/-- C3 counterexample: on `ordEx`, deduplicating first keeps the mismatched
record and yields `[]`, while the code's order (mismatch filter first, then
deduplication) keeps the coherent record — the two orders differ. -/
theorem cleaning_orders_differ :
    drop_mismatched_data (drop_duplicated_userid ordEx) ≠
      drop_incoherent_data ordEx := by
  decide

/-- C3 (amended): the two composition orders of the cleaning filters agree
on every Dataset in which all records sharing a user_id have the same
mismatch-filter status (in particular whenever no user_id is duplicated);
they can differ when a duplicated user_id mixes mismatched and coherent
records (see the counterexample). -/
theorem cleaning_orders_agree (d : List Record)
    (h : ∀ a ∈ d, ∀ b ∈ d, a.user_id = b.user_id → coherent a = coherent b) :
    drop_mismatched_data (drop_duplicated_userid d) = drop_incoherent_data d := by
  rw [drop_incoherent_data, drop_mismatched_data, drop_mismatched_data,
    drop_duplicated_userid, drop_duplicated_userid]
  exact filter_dedupAux coherent d [] [] (fun u h1 => h1)
    (fun u h1 => by simp at h1) h

/-- A dataset with a duplicated user_id whose records agree on the mismatch
status, plus a mismatched singleton. -/
def ordExOk : List Record :=
  [⟨"u1", "treatment", "old_page", 1⟩, ⟨"u1", "treatment", "old_page", 0⟩,
   ⟨"u2", "treatment", "new_page", 0⟩]

/-- Witness for the amended C3 at the concrete dataset `ordExOk`. -/
theorem cleaning_orders_agree_witness :
    (∀ a ∈ ordExOk, ∀ b ∈ ordExOk, a.user_id = b.user_id →
        coherent a = coherent b) ∧
      drop_mismatched_data (drop_duplicated_userid ordExOk) =
        drop_incoherent_data ordExOk :=
  ⟨by decide, cleaning_orders_agree ordExOk (by decide)⟩

/-! ### C1: the reported p-value versus the spec's formula -/

/-- C1 counterexample: on the cohorts `tEx`, `cEx` the observed z-score is
`-√2 < 0`; the reported p-value `2*(1 - Φ(-√2))` (code, signed z) differs
from the spec's `2*(1 - Φ(|-√2|))`, because Φ is strictly increasing. -/
theorem reported_p_value_ne_spec :
    reported_p_value tEx cEx ≠ spec_p_value tEx cEx := by
  rw [reported_p_value, spec_p_value, zstat_tEx_cEx]
  simp only [Except.map, ne_eq, Except.ok.injEq]
  rw [abs_neg, abs_of_nonneg (Real.sqrt_nonneg 2)]
  intro h
  have hlt := stdNormalCDF_lt_of_lt
    (neg_lt_self (Real.sqrt_pos.mpr (by norm_num : (0 : ℝ) < 2)))
  linarith

/-- C1 (amended): whenever the observed z-score is nonnegative, the
reported p-value `2*(1 - Φ(z_observed))` coincides with the spec's
`2*(1 - Φ(|z_observed|))`; for a negative z-score the code computes
`2*(1 - Φ(z_observed))` from the signed value instead (counterexample
above). -/
theorem reported_p_value_eq_spec_of_nonneg (t c : List Record) (z zc : ℝ)
    (h : compute_z_statistic t c = .ok (z, zc)) (hz : 0 ≤ z) :
    reported_p_value t c = spec_p_value t c := by
  rw [reported_p_value, spec_p_value, h]
  simp [Except.map, abs_of_nonneg hz]

/-- Witness for the amended C1 at the cohorts `tEx2`, `cEx2`, whose observed
z-score is 0. -/
theorem reported_p_value_eq_spec_witness :
    reported_p_value tEx2 cEx2 = spec_p_value tEx2 cEx2 :=
  reported_p_value_eq_spec_of_nonneg tEx2 cEx2 0 zCriticalScore
    zstat_tEx2_cEx2 le_rfl

/-! ### C2: swapping treatment and control -/

/-- Symmetry of the pooled standard error in the two cohorts. -/
theorem pool_stdev_comm (t c : List Record) : pool_stdev c t = pool_stdev t c := by
  dsimp only [pool_stdev]
  congr 1
  ring

/-- C2 (amended): swapping the treatment and control arguments of the
z-test negates the observed z-score and leaves the critical score
unchanged.  The resulting p-value is NOT left unchanged in general, because
the code computes it from the signed z-score (see the counterexample). -/
theorem z_statistic_swap (t c : List Record) (z zc : ℝ)
    (h : compute_z_statistic t c = .ok (z, zc)) :
    compute_z_statistic c t = .ok (-z, zc) := by
  cases ht : compute_conversion_rate t with
  | error e =>
    rw [compute_z_statistic, ht] at h
    cases h
  | ok rt =>
    cases hc : compute_conversion_rate c with
    | error e =>
      rw [compute_z_statistic, ht, hc] at h
      cases h
    | ok rc =>
      rw [compute_z_statistic_eq ht hc] at h
      by_cases hp : pool_stdev t c = 0
      · rw [if_pos hp] at h
        cases h
      · rw [if_neg hp] at h
        simp only [Except.ok.injEq, Prod.mk.injEq] at h
        obtain ⟨h1, h2⟩ := h
        rw [compute_z_statistic_eq hc ht, pool_stdev_comm, if_neg hp]
        rw [← h1, ← h2, ← neg_div, neg_sub]

/-- Witness for the amended C2 at the cohorts `tEx`, `cEx` (observed
z-score `-√2`). -/
theorem z_statistic_swap_witness :
    compute_z_statistic cEx tEx = .ok (-(-Real.sqrt 2), zCriticalScore) :=
  z_statistic_swap tEx cEx (-Real.sqrt 2) zCriticalScore zstat_tEx_cEx

/-- C2 counterexample: on `tEx`, `cEx` the observed z-scores of the two
argument orders are `-√2` and `√2`, and the reported p-values
`2*(1 - Φ(-√2))` and `2*(1 - Φ(√2))` differ, so the p-value is not
invariant under the swap. -/
theorem reported_p_value_not_swap_invariant :
    reported_p_value tEx cEx ≠ reported_p_value cEx tEx := by
  rw [reported_p_value, reported_p_value, zstat_tEx_cEx, zstat_cEx_tEx]
  simp only [Except.map, ne_eq, Except.ok.injEq]
  intro h
  have hlt := stdNormalCDF_lt_of_lt
    (neg_lt_self (Real.sqrt_pos.mpr (by norm_num : (0 : ℝ) < 2)))
  linarith

/-! ### C4: division errors -/

/-- C4 (amended): computing a conversion rate on an empty cohort raises
`ZeroDivisionError("division by zero")`, and computing the z-statistic on
non-empty cohorts with zero pooled standard error raises
`ZeroDivisionError("float division by zero")` — explicit errors, never a
silent NaN.  The messages are the interpreter's generic ones and do not
identify which cohort or quantity is degenerate (see the counterexample). -/
theorem division_errors (t c : List Record) (ht : t ≠ []) (hc : c ≠ [])
    (hse : pool_stdev t c = 0) :
    compute_conversion_rate ([] : List Record) =
        .error (.zeroDivisionError "division by zero") ∧
      compute_z_statistic t c =
        .error (.zeroDivisionError "float division by zero") := by
  refine ⟨rfl, ?_⟩
  have hto : compute_conversion_rate t = .ok (conversion_rate t) := by
    rw [compute_conversion_rate, if_neg (by simpa [List.length_eq_zero] using ht)]
  have hco : compute_conversion_rate c = .ok (conversion_rate c) := by
    rw [compute_conversion_rate, if_neg (by simpa [List.length_eq_zero] using hc)]
  rw [compute_z_statistic_eq hto hco, if_pos hse]

/-- Witness for the amended C4: `tEx` and `cExZero` are non-empty cohorts
with conversion rates 0 and 0, so the pooled standard error is 0. -/
theorem division_errors_witness :
    tEx ≠ [] ∧ cExZero ≠ [] ∧ pool_stdev tEx cExZero = 0 ∧
      (compute_conversion_rate ([] : List Record) =
          .error (.zeroDivisionError "division by zero") ∧
        compute_z_statistic tEx cExZero =
          .error (.zeroDivisionError "float division by zero")) :=
  ⟨by decide, by decide, pool_tEx_cExZero,
    division_errors tEx cExZero (by decide) (by decide) pool_tEx_cExZero⟩

/-- C4 counterexample: the two distinct degenerate inputs "empty treatment
cohort" and "empty control cohort" raise exactly the same error value, so
the surfaced message does not identify which cohort is degenerate. -/
theorem division_error_not_identifying :
    compute_z_statistic ([] : List Record) cEx =
        compute_z_statistic tEx ([] : List Record) ∧
      compute_z_statistic ([] : List Record) cEx =
        .error (.zeroDivisionError "division by zero") := by
  have hnil : compute_conversion_rate ([] : List Record) =
      .error (.zeroDivisionError "division by zero") := rfl
  have h1 : compute_z_statistic ([] : List Record) cEx =
      .error (.zeroDivisionError "division by zero") := by
    rw [compute_z_statistic, hnil]
  have h2 : compute_z_statistic tEx ([] : List Record) =
      .error (.zeroDivisionError "division by zero") := by
    rw [compute_z_statistic, conv_tEx, hnil]
  exact ⟨h1.trans h2.symm, h1⟩

/-! ### C9: the Loader -/

/-- C9 (amended): the Loader fails when the source is missing
(`FileNotFoundError`), empty (`EmptyDataError`), or malformed as CSV (a row
with more fields than the header, `ParserError`); otherwise it succeeds
with whatever columns the source has — it never validates the column
set. -/
theorem read_csv_spec (header : String) (rows : List String)
    (h : ∀ r ∈ rows, (splitComma r).length ≤ (splitComma header).length) :
    read_csv none = .error .fileNotFound ∧
      read_csv (some []) = .error .emptyData ∧
      read_csv (some (header :: rows)) =
        .ok ⟨splitComma header, rows.map splitComma⟩ := by
  refine ⟨rfl, rfl, ?_⟩
  have hall : (rows.map splitComma).all
      (fun r => r.length ≤ (splitComma header).length) = true := by
    rw [List.all_eq_true]
    intro x hx
    rw [List.mem_map] at hx
    obtain ⟨r, hr, rfl⟩ := hx
    simpa using h r hr
  simp only [read_csv, hall, if_true]

/-- Witness for the amended C9 at a concrete two-line source with columns
`foo`, `bar`. -/
theorem read_csv_spec_witness :
    (∀ r ∈ ["1,2"], (splitComma r).length ≤ (splitComma "foo,bar").length) ∧
      (read_csv none = .error .fileNotFound ∧
        read_csv (some []) = .error .emptyData ∧
        read_csv (some ("foo,bar" :: ["1,2"])) =
          .ok ⟨splitComma "foo,bar", ["1,2"].map splitComma⟩) :=
  ⟨by decide, read_csv_spec "foo,bar" ["1,2"] (by decide)⟩

/-- C9 counterexample: a readable, well-formed two-line source whose column
set is `foo, bar` — not the required
`user_id, group, landing_page, converted` — loads successfully instead of
failing with a LoadError: the script never checks the column set. -/
theorem read_csv_no_schema_check :
    read_csv (some ["foo,bar", "1,2"]) = .ok ⟨["foo", "bar"], [["1", "2"]]⟩ := by
  rfl

end ABTest
